import Mathlib

/-!
Verification development for the MCPStack tool-template bootstrap engine
(`scripts/bootstrap.py`): name derivation and validation, the placeholder
rewrite engine, tree enumeration, the apply orchestration and the scaffold
reset.  Texts are embedded as `List Char`; Python's `re` word classes
(`\b`, `[A-Z_]`, ...) act on the ASCII ranges that all placeholder tokens
and all grammar-valid replacement values are drawn from, so the word-class
predicates below use the ASCII character classes.
-/

/-- ASCII word character, the `\w` class used by the `\b` boundaries of the
rewrite patterns: letters, digits and underscore. -/
def wordChar (c : Char) : Bool := c.isAlpha || c.isDigit || c == '_'

/-- What a rewrite pattern requires right after its literal token:
either a `\b` word boundary, or one of the two lookahead classes
`(?=[A-Z_])` and `(?=[A-Z0-9_])` used by the compound-identifier rules. -/
inductive After where
  | wordBoundary
  | upperUnderscore
  | upperDigitUnderscore
deriving DecidableEq, Repr

/-- Evaluate the after-requirement against the character following the
matched token (`none` at end of text). -/
def afterOk : After → Option Char → Bool
  | .wordBoundary, none => true
  | .wordBoundary, some c => !wordChar c
  | .upperUnderscore, none => false
  | .upperUnderscore, some c => c.isUpper || c == '_'
  | .upperDigitUnderscore, none => false
  | .upperDigitUnderscore, some c => c.isUpper || c.isDigit || c == '_'

/-- The five-field name record built by `derive_names` (Python dict with the
five fixed keys).  `envPrefix` is the `env_prefix` key. -/
structure NameSet where
  tool_slug : List Char
  class_name : List Char
  package_name : List Char
  dist_name : List Char
  envPrefix : List Char
deriving DecidableEq, Repr

/-- One substitution rule of `replace_in_text`: a literal token
(`p0 :: ps`, never empty), the requirement after the token, and the
replacement text.  All tokens start and end with word characters, so the
leading `\b` is "previous character is not a word character (or start)". -/
structure Rule where
  p0 : Char
  ps : List Char
  after : After
  repl : List Char
deriving DecidableEq, Repr

/-- The literal token matched by a rule. -/
def Rule.pat (r : Rule) : List Char := r.p0 :: r.ps

/-- One `re.sub(pat, repl, text)` pass, scanning left to right over the
original text exactly as Python's `re.sub` does: at each position, a match
requires the boundary state `bnd` (true iff the previous original character
was absent or not a word character), the literal token as prefix, and the
after-requirement on the following character; a match consumes the token
(lookaheads consume nothing), emits the replacement, and scanning resumes
after the token with the token's last character as previous character.
`fuel` only bounds the recursion; `applyRule` supplies `text.length`,
which is enough fuel because every step consumes at least one character. -/
def substAux (r : Rule) : Nat → Bool → List Char → List Char
  | 0, _, text => text
  | _ + 1, _, [] => []
  | fuel + 1, bnd, c :: rest =>
    if bnd && List.isPrefixOf (r.p0 :: r.ps) (c :: rest)
        && afterOk r.after (List.head? (List.drop r.ps.length rest)) then
      r.repl ++ substAux r fuel (!wordChar (r.ps.getLastD r.p0)) (List.drop r.ps.length rest)
    else
      c :: substAux r fuel (!wordChar c) rest

/-- `re.sub` of one rule over a whole text (scanning starts at a boundary). -/
def applyRule (r : Rule) (text : List Char) : List Char :=
  substAux r text.length true text

/-- Apply a list of rules in order, each one a full `re.sub` pass over the
previous pass's output (the `for pat, repl in patterns` loop). -/
def applyRules (rs : List Rule) (text : List Char) : List Char :=
  rs.foldl (fun acc r => applyRule r acc) text

/-- The seven (pattern, replacement) rules of `replace_in_text`, in their
listed order. -/
def rules (m : NameSet) : List Rule :=
  [ ⟨'m', "cpstack_your_tool_name".data, .wordBoundary, m.package_name⟩,
    ⟨'m', "cpstack-your-tool-name".data, .wordBoundary, m.dist_name⟩,
    ⟨'Y', "ourTool".data, .upperUnderscore, m.class_name⟩,
    ⟨'Y', "ourTool".data, .wordBoundary, m.class_name⟩,
    ⟨'y', "our_tool_name".data, .wordBoundary, m.tool_slug⟩,
    ⟨'M', "CP_YOUR_TOOL_NAME".data, .upperDigitUnderscore, m.envPrefix⟩,
    ⟨'M', "CP_YOUR_TOOL_NAME".data, .wordBoundary, m.envPrefix⟩ ]

/-- `replace_in_text(text, mapping)`: the seven substitutions in order. -/
def replace_in_text (text : List Char) (m : NameSet) : List Char :=
  applyRules (rules m) text

/-- Scan for the existence of a match of rule `r` anywhere in `text`,
starting with boundary state `bnd`; mirrors the position/boundary walk of
`substAux` without substituting. -/
def hasMatch (r : Rule) : Bool → List Char → Bool
  | _, [] => false
  | bnd, c :: rest =>
    (bnd && List.isPrefixOf (r.p0 :: r.ps) (c :: rest)
        && afterOk r.after (List.head? (List.drop r.ps.length rest)))
    || hasMatch r (!wordChar c) rest

/-- No rule of `rs` has any match in `text`. -/
def matchesNone (rs : List Rule) (text : List Char) : Bool :=
  rs.all (fun r => !hasMatch r true text)

example : applyRule ⟨'Y', "ourTool".data, .wordBoundary, "Mimic".data⟩ "x YourTool y".data = "x Mimic y".data := by decide
example : replace_in_text "class YourToolCLI(YourTool): MCP_YOUR_TOOL_NAME_DB".data
    ⟨"mimic".data, "Mimic".data, "mcpstack_mimic".data, "mcpstack-mimic".data, "MCP_MIMIC".data⟩
    = "class MimicCLI(Mimic): MCP_MIMIC_DB".data := by decide

/-- `re.fullmatch(r"[a-z][a-z0-9_]*", s)`: the snake_case grammar used for
`tool_slug` and `package_name`. -/
def snakeOk : List Char → Bool
  | [] => false
  | c :: cs => c.isLower && cs.all (fun d => d.isLower || d.isDigit || d == '_')

/-- `re.fullmatch(r"[A-Z][A-Za-z0-9_]*", s)`: the PascalCase grammar of
`class_name`. -/
def pascalOk : List Char → Bool
  | [] => false
  | c :: cs => c.isUpper && cs.all (fun d => d.isAlpha || d.isDigit || d == '_')

/-- `re.fullmatch(r"[a-z0-9][a-z0-9\-]*", s)`: the kebab-case grammar of
`dist_name`. -/
def kebabOk : List Char → Bool
  | [] => false
  | c :: cs => (c.isLower || c.isDigit) && cs.all (fun d => d.isLower || d.isDigit || d == '-')

/-- `re.fullmatch(r"[A-Z0-9_]+", s)`: the upper-snake grammar of
`env_prefix`. -/
def upperSnakeOk (s : List Char) : Bool :=
  !s.isEmpty && s.all (fun d => d.isUpper || d.isDigit || d == '_')

/-- `is_valid_names(names)`: runs the five grammar checks, collecting every
failure message in field order, and returns `(len(errs) == 0, errs)`. -/
def is_valid_names (m : NameSet) : Bool × List String :=
  let errs : List String :=
    (if snakeOk m.tool_slug then [] else ["tool-slug must be snake_case: [a-z][a-z0-9_]*"])
    ++ (if pascalOk m.class_name then [] else ["class-name must be PascalCase: [A-Z][A-Za-z0-9_]*"])
    ++ (if snakeOk m.package_name then [] else ["package-name must be a valid module name: [a-z][a-z0-9_]*"])
    ++ (if kebabOk m.dist_name then [] else ["dist-name must be kebab-case: [a-z0-9][a-z0-9-]*"])
    ++ (if upperSnakeOk m.envPrefix then [] else ["env-prefix must be upper snake: [A-Z0-9_]+"])
  (errs.length == 0, errs)

/-- Python `s.lower()` on the ASCII strings involved. -/
def pyLower (s : List Char) : List Char := s.map Char.toLower

/-- Python `s.upper()` on the ASCII strings involved. -/
def pyUpper (s : List Char) : List Char := s.map Char.toUpper

/-- `tool_slug.lower().replace("-", "_")` from `derive_names`. -/
def slugSnake (s : List Char) : List Char :=
  (pyLower s).map (fun c => if c == '-' then '_' else c)

/-- `tool_slug.lower().replace("_", "-")` from `derive_names`. -/
def slugKebab (s : List Char) : List Char :=
  (pyLower s).map (fun c => if c == '_' then '-' else c)

/-- Python's `x or default` for an optional string `x`: the default is used
both when `x` is `None` and when `x` is the (falsy) empty string. -/
def pyOr (a : Option (List Char)) (dflt : List Char) : List Char :=
  match a with
  | some v => if v.isEmpty then dflt else v
  | none => dflt

/-- Python's `x or y` where both sides are optional strings. -/
def pyOrOpt (a b : Option (List Char)) : Option (List Char) :=
  match a with
  | some v => if v.isEmpty then b else some v
  | none => b

/-- `derive_names(tool_slug, class_name, package_name=None, dist_name=None,
env_prefix=None)`: normalizes the slug and fills each unset (or falsy)
optional field from its slug formula. -/
def derive_names (tool_slug class_name : List Char)
    (package_name dist_name env_arg : Option (List Char)) : NameSet :=
  let snake := slugSnake tool_slug
  { tool_slug := snake
    class_name := class_name
    package_name := pyOr package_name ("mcpstack_".data ++ snake)
    dist_name := pyOr dist_name ("mcpstack-".data ++ slugKebab tool_slug)
    envPrefix := pyOr env_arg ("MCP_".data ++ pyUpper snake) }

/-- The `PLACEHOLDERS` constant of the script: the shipped default values of
the five fields. -/
def PLACEHOLDERS : NameSet :=
  ⟨"mimic".data, "Mimic".data, "mcpstack_mimic".data, "mcpstack-mimic".data, "MCP_MIMIC".data⟩

/-- The `names` mapping found in a saved `.mcpstack-tool.json`: each key may
be absent (`dict.get` returns `None`). -/
structure StoredNames where
  tool_slug : Option (List Char)
  class_name : Option (List Char)
  package_name : Option (List Char)
  dist_name : Option (List Char)
  envPrefix : Option (List Char)
deriving DecidableEq, Repr

/-- A config with no stored keys — also what `cfg.get("names", {})` yields
when the config is absent or unparseable. -/
def emptyStored : StoredNames := ⟨none, none, none, none, none⟩

/-- The `derive_names(...)` call of `_ensure_names_from_sources`: each field
argument is `flag or source.get(key, placeholder-default)` for the two
required fields and `flag or source.get(key)` for the three optional ones. -/
def resolve_names (ts cn pn dn ep : Option (List Char)) (src : StoredNames) : NameSet :=
  derive_names
    (pyOr ts (Option.getD src.tool_slug PLACEHOLDERS.tool_slug))
    (pyOr cn (Option.getD src.class_name PLACEHOLDERS.class_name))
    (pyOrOpt pn src.package_name)
    (pyOrOpt dn src.dist_name)
    (pyOrOpt ep src.envPrefix)

/-- `_ensure_names_from_sources(...)`: resolves the names from flags, saved
config (when `prefer_config`), and placeholder defaults, then validates;
`typer.BadParameter` with the joined error list is the `error` case. -/
def _ensure_names_from_sources (ts cn pn dn ep : Option (List Char))
    (cfg : Option StoredNames) (prefer_config : Bool) : Except (List String) NameSet :=
  let source := (if prefer_config then cfg else none).getD emptyStored
  let names := resolve_names ts cn pn dn ep source
  if (is_valid_names names).1 then Except.ok names else Except.error (is_valid_names names).2

example : derive_names "my_tool".data "MyTool".data none none none =
    ⟨"my_tool".data, "MyTool".data, "mcpstack_my_tool".data, "mcpstack-my-tool".data, "MCP_MY_TOOL".data⟩ := by decide
example : (is_valid_names ⟨"My-Tool".data, "MyTool".data, "mcpstack_my_tool".data, "mcpstack-my-tool".data, "mcp_x".data⟩).2.length = 2 := by decide

/-- A filesystem entry as the tree walk sees it: its path segments, its
final suffix, whether it is a regular file, and its text content. -/
structure Entry where
  parts : List (List Char)
  suffix : List Char
  isFile : Bool
  content : List Char
deriving DecidableEq, Repr

/-- `IGNORED_PARTS`: directory names whose presence anywhere in a path
excludes it. -/
def IGNORED_PARTS : List (List Char) :=
  [".venv".data, ".git".data, "__pycache__".data, ".mypy_cache".data,
   ".pytest_cache".data, ".ruff_cache".data, "node_modules".data]

/-- `IGNORED_SUFFIXES`: file suffixes excluded from the walk. -/
def IGNORED_SUFFIXES : List (List Char) :=
  [".pyc".data, ".pyo".data, ".DS_Store".data]

/-- `_skip_path(p)`: skip when any path part is ignored or the suffix is. -/
def _skip_path (e : Entry) : Bool :=
  e.parts.any (fun part => IGNORED_PARTS.contains part) || IGNORED_SUFFIXES.contains e.suffix

/-- The filesystem state `iter_files` and `_do_apply` look at: the `src`
and `tests` roots (`none` when the directory is absent, otherwise the
`rglob("*")` listing), the root `pyproject.toml` (`none` unless it exists
and is a regular file, otherwise its content), and the names of the
directories under `src` (for the package-directory move). -/
structure FS where
  srcRoot : Option (List Entry)
  testsRoot : Option (List Entry)
  pyproject : Option (List Char)
  srcDirs : List (List Char)
deriving DecidableEq, Repr

/-- The `pyproject.toml` entry yielded at the end of the walk. -/
def pyprojEntry (content : List Char) : Entry :=
  ⟨["pyproject.toml".data], ".toml".data, true, content⟩

/-- The root-metadata part of the walk: `pyproject.toml` when present. -/
def rootMeta (fs : FS) : List Entry :=
  match fs.pyproject with
  | some content => [pyprojEntry content]
  | none => []

/-- `iter_files()`: when `SRC.exists() and TESTS.exists()`, walk both roots
and yield each regular, non-skipped file; then yield `pyproject.toml` when
present.  Note the conjunctive guard: the roots are not enumerated
independently. -/
def iter_files (fs : FS) : List Entry :=
  (match fs.srcRoot, fs.testsRoot with
   | some s, some t => (s ++ t).filter (fun e => e.isFile && !_skip_path e)
   | _, _ => []) ++ rootMeta fs

/-- The read/rewrite/write loop of `_do_apply`: for each enumerated file,
rewrite its text; write back (and count) only when the result differs. -/
def applyLoop (names : NameSet) : List Entry → Nat × List Entry
  | [] => (0, [])
  | e :: restFiles =>
    let newTxt := replace_in_text e.content names
    let r := applyLoop names restFiles
    if newTxt == e.content then
      (r.1, e :: r.2)
    else
      (r.1 + 1, { e with content := newTxt } :: r.2)

/-- The package-directory move of `_do_apply`: when `src/` still holds the
placeholder package directory and the target name differs, rename it. -/
def movePkgDir (dirs : List (List Char)) (names : NameSet) : Bool × List (List Char) :=
  let oldName := "mcpstack_your_tool_name".data
  if dirs.contains oldName && !(names.package_name == oldName) then
    (true, dirs.map (fun d => if d == oldName then names.package_name else d))
  else
    (false, dirs)

/-- Outcome of `_do_apply`: either the clean `typer.Exit()` abort taken
before the rewrite loop (carrying the untouched enumerated files and
`src` directories), or completion with the number of files written, the
post-pass files, and the directory-move outcome. -/
inductive ApplyResult where
  | aborted (exitCode : Nat) (files : List Entry) (srcDirs : List (List Char))
  | done (filesChanged : Nat) (files : List Entry) (moved : Bool) (srcDirs : List (List Char))
deriving DecidableEq, Repr

/-- `_do_apply(names, yes)`: unless `yes` or the interactive confirmation
`confirmAns` was given, raise `typer.Exit()` (exit code 0) before touching
anything; otherwise run the rewrite loop over `iter_files()` and then move
the package directory. -/
def _do_apply (fs : FS) (names : NameSet) (yes confirmAns : Bool) : ApplyResult :=
  if !yes && !confirmAns then
    .aborted 0 (iter_files fs) fs.srcDirs
  else
    let r := applyLoop names (iter_files fs)
    let mv := movePkgDir fs.srcDirs names
    .done r.1 r.2 mv.1 mv.2

/-- The pristine scaffold directory: its optional `src` and `tests` trees,
`pyproject.toml`, and the two possible readme files. -/
structure ScaffoldDir where
  src : Option (List Entry)
  tests : Option (List Entry)
  pyproject : Option (List Char)
  readmeMd : Option (List Char)
  readmeRst : Option (List Char)
deriving DecidableEq, Repr

/-- The working-tree state `reset` operates on. -/
structure ResetState where
  scaffold : Option ScaffoldDir
  src : Option (List Entry)
  tests : Option (List Entry)
  pyproject : Option (List Char)
  readmeMd : Option (List Char)
  readmeRst : Option (List Char)
deriving DecidableEq, Repr

/-- Outcome of `reset`: an early `typer.Exit` (code 0 for the soft-mode tip,
code 1 for a missing scaffold) leaving the state untouched, or completion
with the new state and the warnings emitted for skipped members. -/
inductive ResetResult where
  | earlyExit (exitCode : Nat) (st : ResetState)
  | completed (st : ResetState) (warnings : List String)
deriving DecidableEq, Repr

/-- `reset(hard)`: without `--hard`, print a tip and exit; with a missing
scaffold, exit with code 1.  Otherwise each of `src` and `tests` is deleted
(`shutil.rmtree` when it exists) before its scaffold counterpart is checked:
a present counterpart is copied wholesale, a missing one leaves the tree
deleted and only emits a warning.  `pyproject.toml` and the readme are
force-copied when their scaffold counterparts exist, and kept otherwise
(with a warning). -/
def reset (hard : Bool) (st : ResetState) : ResetResult :=
  if !hard then
    .earlyExit 0 st
  else
    match st.scaffold with
    | none => .earlyExit 1 st
    | some sc =>
      -- src tree: rmtree first, then copy from scaffold if that exists
      let srcStep : Option (List Entry) × List String :=
        match sc.src with
        | some t => (some t, [])
        | none => (none, ["scaffold/src not found — skipped."])
      let testsStep : Option (List Entry) × List String :=
        match sc.tests with
        | some t => (some t, [])
        | none => (none, ["scaffold/tests not found — skipped."])
      let pyStep : Option (List Char) × List String :=
        match sc.pyproject with
        | some c => (some c, [])
        | none => (st.pyproject, ["scaffold/pyproject.toml not found — skipped."])
      let readmeStep : Option (List Char) × Option (List Char) × List String :=
        match sc.readmeMd with
        | some c => (some c, st.readmeRst, [])
        | none =>
          match sc.readmeRst with
          | some c => (st.readmeMd, some c, [])
          | none => (st.readmeMd, st.readmeRst, ["scaffold/README not found — skipped."])
      .completed
        ⟨st.scaffold, srcStep.1, testsStep.1, pyStep.1, readmeStep.1, readmeStep.2.1⟩
        (srcStep.2 ++ testsStep.2 ++ pyStep.2 ++ readmeStep.2.2)

/-- A rule with no match anywhere leaves the text unchanged (any fuel). -/
theorem substAux_eq_of_noMatch (r : Rule) :
    ∀ (fuel : Nat) (bnd : Bool) (t : List Char),
      hasMatch r bnd t = false → substAux r fuel bnd t = t := by
  intro fuel
  induction fuel with
  | zero => intro bnd t _; rfl
  | succ n ih =>
    intro bnd t h
    cases t with
    | nil => rfl
    | cons c rest =>
      rw [hasMatch] at h
      rcases Bool.or_eq_false_iff.mp h with ⟨h1, h2⟩
      rw [substAux, if_neg (by rw [h1]; exact Bool.false_ne_true), ih _ _ h2]

/-- `re.sub` with no match is the identity. -/
theorem applyRule_eq_of_noMatch (r : Rule) (t : List Char)
    (h : hasMatch r true t = false) : applyRule r t = t :=
  substAux_eq_of_noMatch r t.length true t h

/-- A whole rule list none of whose rules matches leaves the text
unchanged. -/
theorem applyRules_eq_of_noMatch (rs : List Rule) (t : List Char)
    (h : ∀ r ∈ rs, hasMatch r true t = false) : applyRules rs t = t := by
  induction rs with
  | nil => rfl
  | cons r rest ih =>
    have hr : applyRule r t = t := applyRule_eq_of_noMatch r t (h r (by simp))
    simp only [applyRules, List.foldl_cons, hr]
    exact ih (fun r' hr' => h r' (by simp [hr']))

/-- A rule whose replacement is its own token is the identity: every match
is rewritten to exactly the text it consumed. -/
theorem substAux_eq_of_repl_pat (r : Rule) (hr : r.repl = r.p0 :: r.ps) :
    ∀ (fuel : Nat) (bnd : Bool) (t : List Char), substAux r fuel bnd t = t := by
  intro fuel
  induction fuel with
  | zero => intro bnd t; rfl
  | succ n ih =>
    intro bnd t
    cases t with
    | nil => rfl
    | cons c rest =>
      rw [substAux]
      split
      case isTrue h =>
        have hp : (r.p0 :: r.ps) <+: (c :: rest) := by
          have := (Bool.and_eq_true _ _).mp ((Bool.and_eq_true _ _).mp h).1
          simpa using this.2
        have happ := List.prefix_iff_eq_append.mp hp
        rw [ih, hr]
        simpa using happ
      case isFalse _ => rw [ih]

/-- `applyRule` of a token-to-itself rule is the identity. -/
theorem applyRule_eq_of_repl_pat (r : Rule) (hr : r.repl = r.p0 :: r.ps)
    (t : List Char) : applyRule r t = t :=
  substAux_eq_of_repl_pat r hr t.length true t

/-- The write-back loop characterized: the count is the number of files
whose rewrite differs from their content, and exactly those files are
written (the others are returned untouched). -/
theorem applyLoop_eq (names : NameSet) (l : List Entry) :
    applyLoop names l =
      ((l.filter (fun e => !(replace_in_text e.content names == e.content))).length,
       l.map (fun e =>
         if replace_in_text e.content names == e.content then e
         else { e with content := replace_in_text e.content names })) := by
  induction l with
  | nil => rfl
  | cons e rest ih =>
    rw [applyLoop, ih]
    cases hc : (replace_in_text e.content names == e.content) with
    | true =>
      have hc' : replace_in_text e.content names = e.content := by simpa using hc
      simp [hc, hc']
    | false =>
      have hc' : ¬ replace_in_text e.content names = e.content := by simpa using hc
      simp [hc, hc', List.filter_cons]

/-- Helper: `len(errs) == 0` is emptiness. -/
theorem lengthBeqZero {α : Type} (l : List α) : (l.length == 0) = l.isEmpty := by
  cases l <;> rfl

/-- C5: `derive_names("my_tool", "MyTool")` with no overrides yields exactly
`package_name = "mcpstack_my_tool"`, `dist_name = "mcpstack-my-tool"`,
`env_prefix = "MCP_MY_TOOL"`; and derivation is total: for every slug,
class name and optional overrides it returns the fully populated five-field
record (explicit override when truthy, slug formula otherwise). -/
theorem C5_derive_defaults_total :
    (derive_names "my_tool".data "MyTool".data none none none =
      ⟨"my_tool".data, "MyTool".data, "mcpstack_my_tool".data,
       "mcpstack-my-tool".data, "MCP_MY_TOOL".data⟩)
    ∧ ∀ (slug cls : List Char) (p d e : Option (List Char)),
        derive_names slug cls p d e =
          ⟨slugSnake slug, cls,
           pyOr p ("mcpstack_".data ++ slugSnake slug),
           pyOr d ("mcpstack-".data ++ slugKebab slug),
           pyOr e ("MCP_".data ++ pyUpper (slugSnake slug))⟩ :=
  ⟨by decide, fun _ _ _ _ _ => rfl⟩

/-- C6: the validator runs all five grammar checks unconditionally and
collects every failure: `ok` is true exactly when the error list is empty,
the number of messages equals the number of failing checks, and the
two-violation example (slug `"My-Tool"`, env prefix `"mcp_x"`) yields
exactly its two messages in field order. -/
theorem C6_validator_complete :
    (∀ m : NameSet, (is_valid_names m).1 = (is_valid_names m).2.isEmpty)
    ∧ (∀ m : NameSet, (is_valid_names m).2.length =
        (if snakeOk m.tool_slug then 0 else 1) + (if pascalOk m.class_name then 0 else 1)
        + (if snakeOk m.package_name then 0 else 1) + (if kebabOk m.dist_name then 0 else 1)
        + (if upperSnakeOk m.envPrefix then 0 else 1))
    ∧ is_valid_names ⟨"My-Tool".data, "MyTool".data, "mcpstack_my_tool".data,
        "mcpstack-my-tool".data, "mcp_x".data⟩
      = (false, ["tool-slug must be snake_case: [a-z][a-z0-9_]*",
                 "env-prefix must be upper snake: [A-Z0-9_]+"]) := by
  refine ⟨fun m => lengthBeqZero _, fun m => ?_, by decide⟩
  cases h1 : snakeOk m.tool_slug <;> cases h2 : pascalOk m.class_name <;>
    cases h3 : snakeOk m.package_name <;> cases h4 : kebabOk m.dist_name <;>
    cases h5 : upperSnakeOk m.envPrefix <;>
    simp [is_valid_names, h1, h2, h3, h4, h5]

/-- A fully grammar-valid NameSet whose class name extends the `YourTool`
placeholder: it breaks rewrite idempotence. -/
def NbadC1 : NameSet :=
  ⟨"mimic".data, "YourToolX".data, "mcpstack_mimic".data, "mcpstack-mimic".data, "MCP_MIMIC".data⟩

/-- C1 is false as stated: `NbadC1` is valid (all five grammars hold), yet
on the text `"YourTool"` a second `replace_in_text` pass changes the first
pass's output again (`"YourTool" ↦ "YourToolX" ↦ "YourToolXX"`). -/
theorem C1_idempotence_counterexample :
    (is_valid_names NbadC1).1 = true
    ∧ replace_in_text (replace_in_text "YourTool".data NbadC1) NbadC1
        ≠ replace_in_text "YourTool".data NbadC1 := by
  refine ⟨by decide, by decide⟩

/-- C1 (amended): rewriting is idempotent on every input whose first-pass
output contains no matchable occurrence of any of the seven patterns —
in particular whenever the NameSet's values cannot re-create placeholder
tokens.  (Unconditional idempotence fails, see the counterexample.) -/
theorem C1_rewrite_idempotent_amended (m : NameSet) (t : List Char)
    (h : matchesNone (rules m) (replace_in_text t m) = true) :
    replace_in_text (replace_in_text t m) m = replace_in_text t m := by
  apply applyRules_eq_of_noMatch
  intro r hr
  have hx := List.all_eq_true.mp h r hr
  simpa using hx

/-- The default-derived sample mapping used for concrete rewrite checks. -/
def sampleNames : NameSet := derive_names "my_tool".data "MyTool".data none none none

/-- A sample template text. -/
def sampleText : List Char := "from mcpstack_your_tool_name import YourTool".data

theorem C1_rewrite_idempotent_witness :
    matchesNone (rules sampleNames) (replace_in_text sampleText sampleNames) = true
    ∧ replace_in_text (replace_in_text sampleText sampleNames) sampleNames
        = replace_in_text sampleText sampleNames :=
  ⟨by decide, C1_rewrite_idempotent_amended sampleNames sampleText (by decide)⟩

/-- A fully grammar-valid NameSet whose package name is itself the slug
placeholder token: rule order becomes observable. -/
def NswapC2 : NameSet :=
  ⟨"mimic".data, "Mimic".data, "your_tool_name".data, "mcpstack-mimic".data, "MCP_MIMIC".data⟩

/-- The seven rules of `NswapC2` with the slug rule moved to the front. -/
def altOrderC2 : List Rule :=
  [ ⟨'y', "our_tool_name".data, .wordBoundary, "mimic".data⟩,
    ⟨'m', "cpstack_your_tool_name".data, .wordBoundary, "your_tool_name".data⟩,
    ⟨'m', "cpstack-your-tool-name".data, .wordBoundary, "mcpstack-mimic".data⟩,
    ⟨'Y', "ourTool".data, .upperUnderscore, "Mimic".data⟩,
    ⟨'Y', "ourTool".data, .wordBoundary, "Mimic".data⟩,
    ⟨'M', "CP_YOUR_TOOL_NAME".data, .upperDigitUnderscore, "MCP_MIMIC".data⟩,
    ⟨'M', "CP_YOUR_TOOL_NAME".data, .wordBoundary, "MCP_MIMIC".data⟩ ]

/-- C2 is false as stated: for the valid NameSet `NswapC2`, applying the
seven rules in a permuted order (slug rule first) gives a different output
than the listed order on `"mcpstack_your_tool_name"` — the listed order
rewrites it to `"your_tool_name"` and then to `"mimic"`, the permuted
order leaves `"your_tool_name"`. -/
theorem C2_order_counterexample :
    (is_valid_names NswapC2).1 = true
    ∧ List.Perm altOrderC2 (rules NswapC2)
    ∧ applyRules altOrderC2 "mcpstack_your_tool_name".data
        ≠ applyRules (rules NswapC2) "mcpstack_your_tool_name".data := by
  refine ⟨by decide, by decide, by decide⟩

/-- C2 (amended): the seven rules are not mutually non-interfering for
every valid NameSet (see the counterexample); but whenever the seven
substitution passes of a NameSet pairwise commute as text transformers,
applying them in any order yields exactly the listed-order output of
`replace_in_text`. -/
theorem C2_order_amended (m : NameSet) (rs : List Rule) (t : List Char)
    (hperm : List.Perm rs (rules m))
    (hcomm : ∀ r1 ∈ rules m, ∀ r2 ∈ rules m, ∀ u : List Char,
      applyRule r1 (applyRule r2 u) = applyRule r2 (applyRule r1 u)) :
    applyRules rs t = replace_in_text t m :=
  List.Perm.foldl_eq' hperm
    (fun x hx y hy z => hcomm y (hperm.subset hy) x (hperm.subset hx) z) t

/-- The fixed-point NameSet: every field equals its own placeholder token
(all five grammars hold), so each substitution pass is the identity. -/
def NfixC2 : NameSet :=
  ⟨"your_tool_name".data, "YourTool".data, "mcpstack_your_tool_name".data,
   "mcpstack-your-tool-name".data, "MCP_YOUR_TOOL_NAME".data⟩

/-- Every rule of `NfixC2` replaces its token by itself, hence acts as the
identity. -/
theorem rulesNfix_id (r : Rule) (hr : r ∈ rules NfixC2) (u : List Char) :
    applyRule r u = u := by
  fin_cases hr <;> exact applyRule_eq_of_repl_pat _ (by decide) _

/-- The rules of `NfixC2` with the last two swapped to the front. -/
def altOrderFixC2 : List Rule :=
  [ ⟨'M', "CP_YOUR_TOOL_NAME".data, .upperDigitUnderscore, "MCP_YOUR_TOOL_NAME".data⟩,
    ⟨'M', "CP_YOUR_TOOL_NAME".data, .wordBoundary, "MCP_YOUR_TOOL_NAME".data⟩,
    ⟨'m', "cpstack_your_tool_name".data, .wordBoundary, "mcpstack_your_tool_name".data⟩,
    ⟨'m', "cpstack-your-tool-name".data, .wordBoundary, "mcpstack-your-tool-name".data⟩,
    ⟨'Y', "ourTool".data, .upperUnderscore, "YourTool".data⟩,
    ⟨'Y', "ourTool".data, .wordBoundary, "YourTool".data⟩,
    ⟨'y', "our_tool_name".data, .wordBoundary, "your_tool_name".data⟩ ]

theorem C2_order_witness :
    applyRules altOrderFixC2 "use YourTool now".data
      = replace_in_text "use YourTool now".data NfixC2 :=
  C2_order_amended NfixC2 altOrderFixC2 "use YourTool now".data (by decide)
    (fun r1 h1 r2 h2 u => by
      rw [rulesNfix_id r2 h2 u, rulesNfix_id r1 h1 u, rulesNfix_id r2 h2 u])

/-- C8: word-boundary safety.  A placeholder token embedded in a longer
identifier is left untouched for every NameSet: with any word character in
front of `YourTool` or `MCP_YOUR_TOOL_NAME`, or any trailing word character
the compound lookahead does not allow, `replace_in_text` is the identity.
A class-name or env-prefix placeholder followed by an uppercase letter,
digit (env) or underscore IS rewritten (compound forms, shown on the
default-derived mapping). -/
theorem C8_word_boundary_safety :
    (∀ (m : NameSet) (c : Char), wordChar c = true →
      replace_in_text (c :: "YourTool".data) m = c :: "YourTool".data)
    ∧ (∀ (m : NameSet) (c : Char), wordChar c = true → c.isUpper = false → c ≠ '_' →
      replace_in_text ("YourTool".data ++ [c]) m = "YourTool".data ++ [c])
    ∧ (∀ (m : NameSet) (c : Char), wordChar c = true →
      replace_in_text (c :: "MCP_YOUR_TOOL_NAME".data) m = c :: "MCP_YOUR_TOOL_NAME".data)
    ∧ (∀ (m : NameSet) (c : Char), wordChar c = true → c.isUpper = false →
        c.isDigit = false → c ≠ '_' →
      replace_in_text ("MCP_YOUR_TOOL_NAME".data ++ [c]) m = "MCP_YOUR_TOOL_NAME".data ++ [c])
    ∧ replace_in_text "YourToolConfig".data sampleNames = "MyToolConfig".data
    ∧ replace_in_text "YourTool_cfg YourTool".data sampleNames = "MyTool_cfg MyTool".data
    ∧ replace_in_text "MCP_YOUR_TOOL_NAME_URL MCP_YOUR_TOOL_NAME2".data sampleNames
        = "MCP_MY_TOOL_URL MCP_MY_TOOL2".data := by
  refine ⟨?_, ?_, ?_, ?_, by decide, by decide, by decide⟩
  · intro m c h
    apply applyRules_eq_of_noMatch
    intro r hr
    fin_cases hr <;> simp [hasMatch, List.isPrefixOf, afterOk, h]
  · intro m c h h2 h3
    apply applyRules_eq_of_noMatch
    intro r hr
    fin_cases hr <;> simp [hasMatch, List.isPrefixOf, afterOk, h, h2, h3]
  · intro m c h
    apply applyRules_eq_of_noMatch
    intro r hr
    fin_cases hr <;> simp [hasMatch, List.isPrefixOf, afterOk, h]
  · intro m c h h2 h3 h4
    apply applyRules_eq_of_noMatch
    intro r hr
    fin_cases hr <;> simp [hasMatch, List.isPrefixOf, afterOk, h, h2, h3, h4]

theorem C8_word_boundary_witness :
    replace_in_text ('x' :: "YourTool".data) sampleNames = 'x' :: "YourTool".data
    ∧ replace_in_text ("YourTool".data ++ ['q']) sampleNames = "YourTool".data ++ ['q']
    ∧ replace_in_text ('x' :: "MCP_YOUR_TOOL_NAME".data) sampleNames
        = 'x' :: "MCP_YOUR_TOOL_NAME".data
    ∧ replace_in_text ("MCP_YOUR_TOOL_NAME".data ++ ['q']) sampleNames
        = "MCP_YOUR_TOOL_NAME".data ++ ['q'] :=
  ⟨C8_word_boundary_safety.1 sampleNames 'x' (by decide),
   C8_word_boundary_safety.2.1 sampleNames 'q' (by decide) (by decide) (by decide),
   C8_word_boundary_safety.2.2.1 sampleNames 'x' (by decide),
   C8_word_boundary_safety.2.2.2.1 sampleNames 'q' (by decide) (by decide) (by decide) (by decide)⟩

/-- A regular, non-filtered source file for the enumeration counterexample. -/
def loneEntry : Entry :=
  ⟨["src".data, "tool.py".data], ".py".data, true, "import mcpstack_your_tool_name".data⟩

/-- A tree whose `src` root exists (holding `loneEntry`) while the `tests`
root is absent. -/
def fsC3 : FS := ⟨some [loneEntry], none, none, []⟩

/-- C3 is false as stated: with the `src` root present and the `tests` root
absent, `iter_files` yields nothing from `src` — the guard requires both
roots, so the regular non-filtered file under the existing root is NOT
enumerated. -/
theorem C3_roots_counterexample :
    loneEntry.isFile = true ∧ _skip_path loneEntry = false
    ∧ fsC3.srcRoot = some [loneEntry] ∧ fsC3.testsRoot = none
    ∧ loneEntry ∉ iter_files fsC3 := by
  refine ⟨rfl, by decide, rfl, rfl, by decide⟩

/-- C3 (amended): the two roots are enumerated only jointly: if either root
is absent, neither contributes any path (and this is not an error — the
walk just yields the root metadata file, when present); when both exist,
every regular non-filtered file under them is yielded. -/
theorem C3_iter_files_amended :
    (∀ fs : FS, fs.testsRoot = none → iter_files fs = rootMeta fs)
    ∧ (∀ fs : FS, fs.srcRoot = none → iter_files fs = rootMeta fs)
    ∧ (∀ (fs : FS) (s t : List Entry), fs.srcRoot = some s → fs.testsRoot = some t →
        iter_files fs = (s ++ t).filter (fun e => e.isFile && !_skip_path e) ++ rootMeta fs) := by
  refine ⟨?_, ?_, ?_⟩
  · rintro ⟨src, tst, py, dirs⟩ h
    simp only at h
    subst h
    cases src <;> rfl
  · rintro ⟨src, tst, py, dirs⟩ h
    simp only at h
    subst h
    cases tst <;> rfl
  · rintro ⟨src, tst, py, dirs⟩ s t h1 h2
    simp only at h1 h2
    subst h1; subst h2
    rfl

theorem C3_iter_files_witness : iter_files fsC3 = rootMeta fsC3 :=
  C3_iter_files_amended.1 fsC3 rfl

/-- Ten regular files under `src`, three containing placeholders. -/
def files10 : List Entry :=
  [ ⟨["src".data, "a.py".data], ".py".data, true, "import mcpstack_your_tool_name".data⟩,
    ⟨["src".data, "b.py".data], ".py".data, true, "class YourTool: pass".data⟩,
    ⟨["src".data, "c.py".data], ".py".data, true, "MCP_YOUR_TOOL_NAME_KEY".data⟩,
    ⟨["src".data, "d.py".data], ".py".data, true, "nothing one".data⟩,
    ⟨["src".data, "e.py".data], ".py".data, true, "nothing two".data⟩,
    ⟨["src".data, "f.py".data], ".py".data, true, "nothing three".data⟩,
    ⟨["src".data, "g.py".data], ".py".data, true, "nothing four".data⟩,
    ⟨["src".data, "h.py".data], ".py".data, true, "nothing five".data⟩,
    ⟨["src".data, "i.py".data], ".py".data, true, "nothing six".data⟩,
    ⟨["src".data, "j.py".data], ".py".data, true, "nothing seven".data⟩ ]

/-- The ten-file tree (both roots exist, `tests` empty, no pyproject). -/
def fs10 : FS := ⟨some files10, some [], none, []⟩

/-- `files10` after rewriting the three placeholder files with the
default-derived sample mapping. -/
def files10after : List Entry :=
  [ ⟨["src".data, "a.py".data], ".py".data, true, "import mcpstack_my_tool".data⟩,
    ⟨["src".data, "b.py".data], ".py".data, true, "class MyTool: pass".data⟩,
    ⟨["src".data, "c.py".data], ".py".data, true, "MCP_MY_TOOL_KEY".data⟩,
    ⟨["src".data, "d.py".data], ".py".data, true, "nothing one".data⟩,
    ⟨["src".data, "e.py".data], ".py".data, true, "nothing two".data⟩,
    ⟨["src".data, "f.py".data], ".py".data, true, "nothing three".data⟩,
    ⟨["src".data, "g.py".data], ".py".data, true, "nothing four".data⟩,
    ⟨["src".data, "h.py".data], ".py".data, true, "nothing five".data⟩,
    ⟨["src".data, "i.py".data], ".py".data, true, "nothing six".data⟩,
    ⟨["src".data, "j.py".data], ".py".data, true, "nothing seven".data⟩ ]

/-- C7: apply's accounting.  A confirmed `_do_apply` writes back exactly the
enumerated files whose rewrite differs from their content (all others are
returned untouched) and `files_changed` is exactly the number of such
files; on the ten-file tree with three placeholder files it reports 3 and
leaves the seven clean files byte-identical. -/
theorem C7_apply_accounting :
    (∀ (fs : FS) (names : NameSet) (ans : Bool),
      _do_apply fs names true ans =
        ApplyResult.done
          ((iter_files fs).filter
            (fun e => !(replace_in_text e.content names == e.content))).length
          ((iter_files fs).map (fun e =>
            if replace_in_text e.content names == e.content then e
            else { e with content := replace_in_text e.content names }))
          (movePkgDir fs.srcDirs names).1 (movePkgDir fs.srcDirs names).2)
    ∧ _do_apply fs10 sampleNames true true
        = ApplyResult.done 3 files10after false [] := by
  constructor
  · intro fs names ans
    simp [_do_apply, applyLoop_eq]
  · decide

/-- C9: the confirmation gate.  With neither the `--yes` flag nor an
affirmative prompt answer, `_do_apply` raises the clean `typer.Exit()`
(exit code 0) before the rewrite loop and before the directory move: the
enumerated files and the `src` directories are returned exactly as they
were.  Either form of confirmation (flag or prompt) proceeds identically. -/
theorem C9_confirmation_gate :
    (∀ (fs : FS) (names : NameSet),
      _do_apply fs names false false = ApplyResult.aborted 0 (iter_files fs) fs.srcDirs)
    ∧ (∀ (fs : FS) (names : NameSet),
      _do_apply fs names false true = _do_apply fs names true true)
    ∧ (∀ (fs : FS) (names : NameSet) (ans : Bool),
      _do_apply fs names true ans = _do_apply fs names true true) := by
  refine ⟨fun fs names => rfl, fun fs names => rfl, fun fs names ans => rfl⟩

/-- C10: during `reset --hard`, each working tree is deleted before its
scaffold counterpart is checked: when the scaffold lacks `tests` (resp.
`src`), the pre-reset working tree of that member is gone afterwards —
not preserved — and the run still completes, with only the member's
skipped warning emitted. -/
theorem C10_reset_deletes_before_check (st : ResetState) (sc : ScaffoldDir)
    (hsc : st.scaffold = some sc) :
    (sc.tests = none → ∃ st' w, reset true st = ResetResult.completed st' w
      ∧ st'.tests = none ∧ "scaffold/tests not found — skipped." ∈ w)
    ∧ (sc.src = none → ∃ st' w, reset true st = ResetResult.completed st' w
      ∧ st'.src = none ∧ "scaffold/src not found — skipped." ∈ w) := by
  obtain ⟨sf, s1, s2, s3, s4, s5⟩ := st
  simp only at hsc
  subst hsc
  constructor
  · intro h
    refine ⟨_, _, rfl, ?_, ?_⟩
    · simp [reset, h]
    · simp [reset, h]
  · intro h
    refine ⟨_, _, rfl, ?_, ?_⟩
    · simp [reset, h]
    · simp [reset, h]

/-- A scaffold missing both its `src` and `tests` members. -/
def scC10 : ScaffoldDir := ⟨none, none, some "pyproject".data, some "readme".data, none⟩

/-- A working tree that still has `src` and `tests` content before reset. -/
def stC10 : ResetState :=
  ⟨some scC10, some [loneEntry], some [loneEntry], some "old-pyproject".data, none, none⟩

theorem C10_reset_witness :
    (∃ st' w, reset true stC10 = ResetResult.completed st' w
      ∧ st'.tests = none ∧ "scaffold/tests not found — skipped." ∈ w)
    ∧ (∃ st' w, reset true stC10 = ResetResult.completed st' w
      ∧ st'.src = none ∧ "scaffold/src not found — skipped." ∈ w) :=
  ⟨(C10_reset_deletes_before_check stC10 scC10 rfl).1 rfl,
   (C10_reset_deletes_before_check stC10 scC10 rfl).2 rfl⟩

/-- Python truthiness of an optional string: `None` and `""` are falsy. -/
def falsy (a : Option (List Char)) : Bool :=
  match a with
  | some v => v.isEmpty
  | none => true

/-- A truthy explicit value wins `x or d`. -/
theorem pyOr_some_ne (v : List Char) (d : List Char) (h : v ≠ []) :
    pyOr (some v) d = v := by
  cases v with
  | nil => exact absurd rfl h
  | cons a as => rfl

/-- A falsy left side loses `x or d`. -/
theorem pyOr_falsy (a : Option (List Char)) (d : List Char) (h : falsy a = true) :
    pyOr a d = d := by
  cases a with
  | none => rfl
  | some v => cases v with
    | nil => rfl
    | cons x xs => simp [falsy] at h

/-- A truthy explicit value wins `x or y` on optionals. -/
theorem pyOrOpt_some_ne (v : List Char) (b : Option (List Char)) (h : v ≠ []) :
    pyOrOpt (some v) b = some v := by
  cases v with
  | nil => exact absurd rfl h
  | cons a as => rfl

/-- A falsy left side loses `x or y` on optionals. -/
theorem pyOrOpt_falsy (a b : Option (List Char)) (h : falsy a = true) :
    pyOrOpt a b = b := by
  cases a with
  | none => rfl
  | some v => cases v with
    | nil => rfl
    | cons x xs => simp [falsy] at h

instance {e a : Type} [DecidableEq e] [DecidableEq a] : DecidableEq (Except e a) := fun x y =>
  match x, y with
  | .ok v, .ok w =>
    if h : v = w then .isTrue (by rw [h]) else .isFalse (fun hc => h (Except.ok.inj hc))
  | .error v, .error w =>
    if h : v = w then .isTrue (by rw [h]) else .isFalse (fun hc => h (Except.error.inj hc))
  | .ok _, .error _ => .isFalse (fun hc => Except.noConfusion hc)
  | .error _, .ok _ => .isFalse (fun hc => Except.noConfusion hc)

/-- A stored config carrying only a slug. -/
def storedC4 : StoredNames := ⟨some "zeta".data, none, none, none, none⟩

/-- C4 is false as stated: with an explicit (empty-string) tool-slug
override supplied and `"zeta"` stored in config, resolution succeeds using
the STORED value — the supplied explicit override is not used (Python's
`or` treats the empty string as absent). -/
theorem C4_precedence_counterexample :
    _ensure_names_from_sources (some []) none none none none (some storedC4) true
      = Except.ok ⟨"zeta".data, "Mimic".data, "mcpstack_zeta".data,
                   "mcpstack-zeta".data, "MCP_ZETA".data⟩
    ∧ ("zeta".data : List Char) ≠ [] := by
  refine ⟨by decide, by decide⟩

/-- C4 (amended): the three-tier precedence holds per field under Python
truthiness: a non-empty explicit flag value is used when supplied (an
empty-string flag is treated as absent); otherwise the stored config
value is used — verbatim for slug/class (via `dict.get` with the
placeholder default), and only when non-empty for package/dist/env;
otherwise the built-in placeholder default or the slug-derived formula
applies.  The resolved slug is normalized (`lower`, `-` to `_`), and a
successful `_ensure_names_from_sources` returns exactly this resolution,
validated. -/
theorem C4_precedence_amended (ts cn pn dn ep : Option (List Char)) (src : StoredNames)
    (R : NameSet) (hR : resolve_names ts cn pn dn ep src = R) :
    (∀ v, ts = some v → v ≠ [] → R.tool_slug = slugSnake v)
    ∧ (falsy ts = true → ∀ w, src.tool_slug = some w → R.tool_slug = slugSnake w)
    ∧ (falsy ts = true → src.tool_slug = none →
        R.tool_slug = slugSnake PLACEHOLDERS.tool_slug)
    ∧ (∀ v, cn = some v → v ≠ [] → R.class_name = v)
    ∧ (falsy cn = true → ∀ w, src.class_name = some w → R.class_name = w)
    ∧ (falsy cn = true → src.class_name = none → R.class_name = PLACEHOLDERS.class_name)
    ∧ (∀ v, pn = some v → v ≠ [] → R.package_name = v)
    ∧ (falsy pn = true → ∀ w, src.package_name = some w → w ≠ [] → R.package_name = w)
    ∧ (falsy pn = true → falsy src.package_name = true →
        R.package_name = "mcpstack_".data ++ R.tool_slug)
    ∧ (∀ v, dn = some v → v ≠ [] → R.dist_name = v)
    ∧ (falsy dn = true → ∀ w, src.dist_name = some w → w ≠ [] → R.dist_name = w)
    ∧ (falsy dn = true → falsy src.dist_name = true →
        R.dist_name = "mcpstack-".data
          ++ slugKebab (pyOr ts (Option.getD src.tool_slug PLACEHOLDERS.tool_slug)))
    ∧ (∀ v, ep = some v → v ≠ [] → R.envPrefix = v)
    ∧ (falsy ep = true → ∀ w, src.envPrefix = some w → w ≠ [] → R.envPrefix = w)
    ∧ (falsy ep = true → falsy src.envPrefix = true →
        R.envPrefix = "MCP_".data ++ pyUpper R.tool_slug)
    ∧ (∀ ns, _ensure_names_from_sources ts cn pn dn ep (some src) true = Except.ok ns →
        ns = R ∧ (is_valid_names ns).1 = true) := by
  subst hR
  refine ⟨?_, ?_, ?_, ?_, ?_, ?_, ?_, ?_, ?_, ?_, ?_, ?_, ?_, ?_, ?_, ?_⟩
  · rintro v rfl hne
    simp [resolve_names, derive_names, pyOr_some_ne v _ hne]
  · intro hf w hw
    simp [resolve_names, derive_names, pyOr_falsy _ _ hf, hw]
  · intro hf hw
    simp [resolve_names, derive_names, pyOr_falsy _ _ hf, hw]
  · rintro v rfl hne
    simp [resolve_names, derive_names, pyOr_some_ne v _ hne]
  · intro hf w hw
    simp [resolve_names, derive_names, pyOr_falsy _ _ hf, hw]
  · intro hf hw
    simp [resolve_names, derive_names, pyOr_falsy _ _ hf, hw]
  · rintro v rfl hne
    simp [resolve_names, derive_names, pyOrOpt_some_ne v _ hne, pyOr_some_ne v _ hne]
  · intro hf w hw hne
    simp [resolve_names, derive_names, pyOrOpt_falsy _ _ hf, hw, pyOr_some_ne w _ hne]
  · intro hf hf2
    simp [resolve_names, derive_names, pyOrOpt_falsy _ _ hf, pyOr_falsy _ _ hf2]
  · rintro v rfl hne
    simp [resolve_names, derive_names, pyOrOpt_some_ne v _ hne, pyOr_some_ne v _ hne]
  · intro hf w hw hne
    simp [resolve_names, derive_names, pyOrOpt_falsy _ _ hf, hw, pyOr_some_ne w _ hne]
  · intro hf hf2
    simp [resolve_names, derive_names, pyOrOpt_falsy _ _ hf, pyOr_falsy _ _ hf2]
  · rintro v rfl hne
    simp [resolve_names, derive_names, pyOrOpt_some_ne v _ hne, pyOr_some_ne v _ hne]
  · intro hf w hw hne
    simp [resolve_names, derive_names, pyOrOpt_falsy _ _ hf, hw, pyOr_some_ne w _ hne]
  · intro hf hf2
    simp [resolve_names, derive_names, pyOrOpt_falsy _ _ hf, pyOr_falsy _ _ hf2]
  · intro ns h
    simp only [_ensure_names_from_sources, if_true, Option.getD_some] at h
    split at h
    case isTrue hv =>
      cases h
      exact ⟨rfl, hv⟩
    case isFalse hv =>
      cases h

/-- A stored config with a slug and a package name. -/
def srcC4 : StoredNames := ⟨some "alpha".data, none, some "storedpkg".data, none, none⟩

theorem C4_precedence_witness :
    (resolve_names (some "beta".data) none none none none srcC4).tool_slug = "beta".data
    ∧ (resolve_names none none none none none srcC4).tool_slug = "alpha".data
    ∧ (resolve_names none none none none none srcC4).package_name = "storedpkg".data
    ∧ (resolve_names none none none none none srcC4).class_name = "Mimic".data
    ∧ (resolve_names none none none none none srcC4).envPrefix = "MCP_ALPHA".data := by
  refine ⟨?_, ?_, ?_, ?_, ?_⟩
  · have h := (C4_precedence_amended (some "beta".data) none none none none srcC4 _ rfl).1
      "beta".data rfl (by decide)
    rw [h]; decide
  · have h := (C4_precedence_amended none none none none none srcC4 _ rfl).2.1
      (by decide) "alpha".data rfl
    rw [h]; decide
  · exact (C4_precedence_amended none none none none none srcC4 _ rfl).2.2.2.2.2.2.2.1
      (by decide) "storedpkg".data rfl (by decide)
  · have h := (C4_precedence_amended none none none none none srcC4 _ rfl).2.2.2.2.2.1
      (by decide) rfl
    rw [h]; decide
  · have h :=
      (C4_precedence_amended none none none none none srcC4 _ rfl).2.2.2.2.2.2.2.2.2.2.2.2.2.2.1
      (by decide) (by decide)
    rw [h]; decide
